import Mathlib

set_option maxHeartbeats 1000000

/-!
Shallow embedding of the mise HTTP access layer (src/http.rs): the request
executor `get` with its scheme-downgrade retry, `get_text` with HTML
detection, the streaming `download_file`, and the `error_code` classifier.
The network transport is a parameter (`send`), and each operation returns,
besides its result, the trace of requests it issued (and for downloads the
trace of filesystem/progress events), so that claims about how many requests
are issued and with which headers can be stated and proved.
-/

/-- A parsed URL: scheme, host, and the remainder (path + query + fragment),
mirroring the fields of the url crate that http.rs reads. -/
structure Url where
  scheme : String
  host : String
  rest : String
deriving DecidableEq, Repr

/-- Serialization of a URL (the url crate's Display / `to_string`):
`scheme "://" host rest`. -/
def Url.serialize (u : Url) : List Char :=
  u.scheme.toList ++ ':' :: '/' :: '/' :: (u.host.toList ++ u.rest.toList)

/-- `to_string` of a URL. -/
def Url.render (u : Url) : String := String.mk u.serialize

/-- `isPre pat l` tests whether `pat` is a leading segment of `l` (the
comparison done character by character from `pat`). -/
def isPre : List Char → List Char → Bool
  | [], _ => true
  | a :: as, l =>
    match l with
    | [] => false
    | b :: bs => (a == b) && isPre as bs

/-- Split a character list at the first occurrence of `pat`: returns the part
strictly before the occurrence and the part strictly after it. -/
def splitOnFirst (pat : List Char) : List Char → Option (List Char × List Char)
  | [] => if pat = [] then some ([], []) else none
  | c :: cs =>
    if isPre pat (c :: cs) then some ([], (c :: cs).drop pat.length)
    else
      match splitOnFirst pat cs with
      | some (a, b) => some (c :: a, b)
      | none => none

/-- Rust `str::contains`: substring occurrence test. -/
def containsSub (s pat : String) : Bool := (splitOnFirst pat.toList s.toList).isSome

/-- Rust `str::starts_with`. -/
def startsWithStr (s pat : String) : Bool := isPre pat.toList s.toList

/-- Worker for `replaceList`, structurally recursive on a fuel bound (one unit
of fuel per character of the remaining input suffices, since a match consumes
at least one character). -/
def replaceGo (pat rep : List Char) : Nat → List Char → List Char
  | _, [] => []
  | 0, l => l
  | f + 1, c :: cs =>
    if isPre pat (c :: cs) then rep ++ replaceGo pat rep f (cs.drop (pat.length - 1))
    else c :: replaceGo pat rep f cs

/-- Rust `str::replace`: replace every non-overlapping occurrence of `pat`
(found left to right) by `rep`. -/
def replaceList (pat rep : List Char) (l : List Char) : List Char :=
  replaceGo pat rep l.length l

/-- The retry URL computation of http.rs:
`url.to_string().replace("http://", "https://")`. -/
def rewriteUrl (s : String) : String :=
  String.mk (replaceList "http://".toList "https://".toList s.toList)

/-- Characters ending the host component of a URL. -/
def notDelim (c : Char) : Bool := !(c == '/' || c == '?' || c == '#')

/-- Parsing a URL string (the url crate's `Url::parse` / `into_url`, restricted
to the shape http.rs manipulates): the scheme is everything before the first
`"://"`, the host runs to the first `/`, `?` or `#`, the rest is the
remainder. A string with no `"://"` is malformed. -/
def parseUrl (s : String) : Option Url :=
  match splitOnFirst "://".toList s.toList with
  | none => none
  | some (sch, tail) =>
    some ⟨String.mk sch, String.mk (tail.takeWhile notDelim), String.mk (tail.dropWhile notDelim)⟩

/-- `reqwest::Response::error_for_status` errors exactly on client-error (4xx)
and server-error (5xx) statuses. -/
def statusIsError (s : Nat) : Bool := decide (400 ≤ s) && decide (s ≤ 599)

/-- A transport-level response: status, declared content length, body. -/
structure Response where
  status : Nat
  contentLength : Option Nat
  body : String
deriving DecidableEq, Repr

/-- One issued request: its URL and the optional authorization header value. -/
structure Request where
  url : Url
  authHeader : Option String
deriving DecidableEq, Repr

/-- The errors http.rs can return (eyre::Report values it constructs). -/
inductive HttpError where
  | transport (msg : String)
  | status (code : Nat) (url : Url)
  | htmlBody (url : Url)
  | urlParse (s : String)
deriving DecidableEq, Repr

/-- Result of a fallible operation; `panic` models a Rust panic (`unwrap`),
`fuelOut` is the artefact of bounding the modelled recursion by fuel. -/
inductive Outcome (α : Type) where
  | ok (a : α)
  | err (e : HttpError)
  | panic (msg : String)
  | fuelOut
deriving DecidableEq, Repr

/-- The message of `bail!("Got HTML instead of text from {}", url)`. -/
def htmlErrorMessage (u : Url) : String := "Got HTML instead of text from " ++ u.render

/-- Request construction in `Client::get`: the `authorization: token <t>`
header is attached exactly when the host is `api.github.com` and a token is
configured (`GITHUB_API_TOKEN`). -/
def mkReq (tok : Option String) (u : Url) : Request :=
  { url := u
    authHeader :=
      if u.host = "api.github.com" then tok.map (fun t => "token " ++ t) else none }

/-- `Client::get` after URL resolution, with the recursive retry bounded by
fuel. Mirrors http.rs: send the request (transport errors propagate); if the
scheme is `http` and the status is a failure, rewrite the URL string and
recurse; otherwise fail on a failure status, else return the response. The
returned list is the trace of issued requests, in order. -/
def getUrl (tok : Option String) (send : Request → Except String Response) :
    Nat → Url → Outcome Response × List Request
  | 0, _ => (.fuelOut, [])
  | fuel + 1, u =>
    let req := mkReq tok u
    match send req with
    | .error m => (.err (.transport m), [req])
    | .ok resp =>
      if u.scheme = "http" ∧ statusIsError resp.status then
        match parseUrl (rewriteUrl u.render) with
        | none => (.panic "invalid url", [req])
        | some u2 =>
          let r := getUrl tok send fuel u2
          (r.1, req :: r.2)
      else if statusIsError resp.status then (.err (.status resp.status u), [req])
      else (.ok resp, [req])

/-- `Client::get` on a URL string: `into_url().unwrap()` (panic on a malformed
URL) followed by the bounded-retry body. Fuel 2 is exact: see
`getUrl_fuel_stable`. -/
def Client.get (tok : Option String) (send : Request → Except String Response)
    (s : String) : Outcome Response × List Request :=
  match parseUrl s with
  | none => (.panic "invalid url", [])
  | some u => getUrl tok send 2 u

/-- `Client::get_text` after URL resolution, with its own recursion bounded by
fuel. Mirrors http.rs: call `get`; on success take the body text; if it starts
with `<!DOCTYPE html>` then retry on the rewritten URL when the (original)
scheme is `http`, otherwise bail with the HTML error; else return the text. -/
def getTextUrl (tok : Option String) (send : Request → Except String Response) :
    Nat → Url → Outcome String × List Request
  | 0, _ => (.fuelOut, [])
  | fuel + 1, u =>
    match getUrl tok send 2 u with
    | (.ok resp, reqs) =>
      if startsWithStr resp.body "<!DOCTYPE html>" then
        if u.scheme = "http" then
          match parseUrl (rewriteUrl u.render) with
          | none => (.panic "invalid url", reqs)
          | some u2 =>
            let r := getTextUrl tok send fuel u2
            (r.1, reqs ++ r.2)
        else (.err (.htmlBody u), reqs)
      else (.ok resp.body, reqs)
    | (.err e, reqs) => (.err e, reqs)
    | (.panic m, reqs) => (.panic m, reqs)
    | (.fuelOut, reqs) => (.fuelOut, reqs)

/-- `Client::get_text` on a URL string. Fuel 2 is exact: see
`getTextUrl_fuel_stable`. -/
def Client.get_text (tok : Option String) (send : Request → Except String Response)
    (s : String) : Outcome String × List Request :=
  match parseUrl s with
  | none => (.panic "invalid url", [])
  | some u => getTextUrl tok send 2 u

/-- Observable download events: declaring the total length to the progress
sink (`pr.set_length`), creating the parent directory, creating the file,
writing a chunk, and reporting a chunk's size (`pr.inc`). -/
inductive DlEvent where
  | setLength (n : Nat)
  | createDir (d : String)
  | createFile
  | write (chunk : List Char)
  | inc (n : Nat)
deriving DecidableEq, Repr

/-- A destination path, exposing what http.rs reads: `Path::parent`. -/
structure FsPath where
  parent : Option String
  name : String
deriving DecidableEq, Repr

/-- Worker for `dlLoop`, structurally recursive on a fuel bound (one unit of
fuel per remaining byte suffices, since each read consumes at least one). -/
def dlGo (pr : Bool) : Nat → List Char → List DlEvent
  | _, [] => []
  | 0, _ => []
  | f + 1, c :: cs =>
    DlEvent.write ((c :: cs).take 32768) ::
      ((if pr then [DlEvent.inc (((c :: cs).take 32768).length)] else []) ++
        dlGo pr f (cs.drop 32767))

/-- The read/write loop of `download_file`: read into the fixed 32 KiB buffer,
stop on a zero-length read, write the chunk in full, then report its size to
the progress sink when one is present. -/
def dlLoop (pr : Bool) (body : List Char) : List DlEvent :=
  dlGo pr body.length body

/-- `Client::download_file`: resolve the URL (propagating a malformed URL as
an error, not a panic), issue the GET through the request executor, declare
the content length to the sink when both exist, `path.parent().unwrap()`
(panic when the path has no parent), create the directory and the file, then
stream the body. Returns the outcome, the request trace and the event trace. -/
def Client.download_file (tok : Option String) (send : Request → Except String Response)
    (pr : Bool) (s : String) (path : FsPath) :
    Outcome Unit × List Request × List DlEvent :=
  match parseUrl s with
  | none => (.err (.urlParse s), [], [])
  | some u =>
    match getUrl tok send 2 u with
    | (.ok resp, reqs) =>
      let ev0 := match resp.contentLength with
        | some l => if pr then [DlEvent.setLength l] else []
        | none => []
      match path.parent with
      | none => (.panic "called Option::unwrap() on a None value", reqs, ev0)
      | some d =>
        (.ok (), reqs,
          ev0 ++ DlEvent.createDir d :: DlEvent.createFile :: dlLoop pr resp.body.toList)
    | (.err e, reqs) => (.err e, reqs, [])
    | (.panic m, reqs) => (.panic m, reqs, [])
    | (.fuelOut, reqs) => (.fuelOut, reqs, [])

/-- An eyre::Report as `error_code` observes it: its rendered message, and the
result of `downcast_ref::<reqwest::Error>()` (`none` when the downcast fails,
`some st` when it succeeds with `err.status() = st`). -/
structure Report where
  msg : String
  reqwestStatus : Option (Option Nat)
deriving DecidableEq, Repr

/-- `error_code` from http.rs: the "404" substring heuristic first, then the
typed status of a recovered reqwest error, else no classification. -/
def error_code (e : Report) : Option Nat :=
  if containsSub e.msg "404" then some 404
  else
    match e.reqwestStatus with
    | some st => st
    | none => none

/-- Worker for `chunksOf`, structurally recursive on a fuel bound. -/
def chunksGo : Nat → List Char → List (List Char)
  | _, [] => []
  | 0, _ => []
  | f + 1, c :: cs => (c :: cs).take 32768 :: chunksGo f (cs.drop 32767)

/-- The successive chunks `download_file`'s loop reads: 32768 bytes at a time,
the last chunk possibly shorter. -/
def chunksOf (l : List Char) : List (List Char) :=
  chunksGo l.length l

/-- Bytes written to the file, in order, by a list of download events. -/
def writtenBytes : List DlEvent → List Char
  | [] => []
  | DlEvent.write c :: es => c ++ writtenBytes es
  | _ :: es => writtenBytes es

/-- Sum of the byte counts reported to the progress sink. -/
def reportedSum : List DlEvent → Nat
  | [] => 0
  | DlEvent.inc n :: es => n + reportedSum es
  | _ :: es => reportedSum es

/-- Number of declare-total calls in a list of download events. -/
def setLengthCount : List DlEvent → Nat
  | [] => 0
  | DlEvent.setLength _ :: es => 1 + setLengthCount es
  | _ :: es => setLengthCount es

/-- The event shape of a fully-reported transfer: each chunk is written, then
immediately reported. -/
def dlShape : List (List Char) → List DlEvent
  | [] => []
  | c :: cs => DlEvent.write c :: DlEvent.inc c.length :: dlShape cs

/-- The rewrite the spec describes: the same URL with only its scheme replaced
by `https`. (Stated from the spec's words, to be compared with `rewriteUrl`,
the rewrite the code performs.) -/
def schemeOnlyRewrite (u : Url) : Url := { u with scheme := "https" }

/-! ## Basic lemmas about the URL rewrite and parse -/

/-- Splitting at `"://"` just after an `https` scheme finds it there, whatever
follows. -/
lemma splitOnFirst_https (xs : List Char) :
    splitOnFirst "://".toList
      ('h' :: 't' :: 't' :: 'p' :: 's' :: ':' :: '/' :: '/' :: xs) =
      some (['h', 't', 't', 'p', 's'], xs) := rfl

/-- Rewriting a serialized `http` URL replaces its scheme and continues on the
remainder of the string. -/
lemma rewriteUrl_toList_http (ys : List Char) :
    (rewriteUrl (String.mk ('h' :: 't' :: 't' :: 'p' :: ':' :: '/' :: '/' :: ys))).toList =
      'h' :: 't' :: 't' :: 'p' :: 's' :: ':' :: '/' :: '/' ::
        replaceGo "http://".toList "https://".toList (ys.length + 6) ys := rfl

/-- The serialization of a URL whose scheme is `http`. -/
lemma serialize_http (u : Url) (h : u.scheme = "http") :
    u.serialize = 'h' :: 't' :: 't' :: 'p' :: ':' :: '/' :: '/' ::
      (u.host.toList ++ u.rest.toList) := by
  unfold Url.serialize
  rw [h]
  rfl

/-- Parsing the rewrite of a serialized `http` URL, explicitly. -/
lemma parseUrl_rewrite (ys : List Char) :
    parseUrl (rewriteUrl (String.mk ('h' :: 't' :: 't' :: 'p' :: ':' :: '/' :: '/' :: ys))) =
      some ⟨"https",
        String.mk ((replaceGo "http://".toList "https://".toList (ys.length + 6) ys).takeWhile
          notDelim),
        String.mk ((replaceGo "http://".toList "https://".toList (ys.length + 6) ys).dropWhile
          notDelim)⟩ := rfl

/-- The URL string used by the scheme-downgrade retry parses, and its scheme
is `https`. -/
lemma parseUrl_rewrite_http (u : Url) (h : u.scheme = "http") :
    ∃ u2 : Url, parseUrl (rewriteUrl u.render) = some u2 ∧ u2.scheme = "https" := by
  have hr : u.render = String.mk ('h' :: 't' :: 't' :: 'p' :: ':' :: '/' :: '/' ::
      (u.host.toList ++ u.rest.toList)) := by
    unfold Url.render
    rw [serialize_http u h]
  rw [hr, parseUrl_rewrite]
  exact ⟨_, rfl, rfl⟩

/-! ## The request executor: one retry, bounded recursion -/

/-- One unfolding step of `getUrl` at positive fuel. -/
lemma getUrl_succ (tok : Option String) (send : Request → Except String Response)
    (f : Nat) (u : Url) :
    getUrl tok send (f + 1) u =
      (match send (mkReq tok u) with
       | .error m => (.err (.transport m), [mkReq tok u])
       | .ok resp =>
         if u.scheme = "http" ∧ statusIsError resp.status then
           match parseUrl (rewriteUrl u.render) with
           | none => (.panic "invalid url", [mkReq tok u])
           | some u2 => ((getUrl tok send f u2).1, mkReq tok u :: (getUrl tok send f u2).2)
         else if statusIsError resp.status then (.err (.status resp.status u), [mkReq tok u])
         else (.ok resp, [mkReq tok u])) := rfl

/-- On a URL whose scheme is not `http`, `getUrl` never recurses: at any
positive fuel it is the plain send-validate step. -/
lemma getUrl_succ_of_ne_http (tok : Option String) (send : Request → Except String Response)
    (u : Url) (h : ¬ u.scheme = "http") (f : Nat) :
    getUrl tok send (f + 1) u =
      (match send (mkReq tok u) with
       | .error m => (.err (.transport m), [mkReq tok u])
       | .ok resp =>
         if statusIsError resp.status then (.err (.status resp.status u), [mkReq tok u])
         else (.ok resp, [mkReq tok u])) := by
  rw [getUrl_succ]
  cases send (mkReq tok u) with
  | error m => rfl
  | ok resp =>
    dsimp only
    rw [if_neg (fun hc => h hc.1)]

/-- Specialization of `getUrl_succ_of_ne_http` to fuel 1. -/
lemma getUrl_one_of_ne_http (tok : Option String) (send : Request → Except String Response)
    (u : Url) (h : ¬ u.scheme = "http") :
    getUrl tok send 1 u =
      (match send (mkReq tok u) with
       | .error m => (.err (.transport m), [mkReq tok u])
       | .ok resp =>
         if statusIsError resp.status then (.err (.status resp.status u), [mkReq tok u])
         else (.ok resp, [mkReq tok u])) :=
  getUrl_succ_of_ne_http tok send u h 0

/-- On a URL whose scheme is not `http`, `getUrl` issues exactly one request. -/
lemma getUrl_trace_of_ne_http (tok : Option String) (send : Request → Except String Response)
    (u : Url) (h : ¬ u.scheme = "http") (f : Nat) :
    (getUrl tok send (f + 1) u).2 = [mkReq tok u] := by
  rw [getUrl_succ_of_ne_http tok send u h f]
  cases send (mkReq tok u) with
  | error m => rfl
  | ok resp =>
    dsimp only
    split <;> rfl

/-- Fuel 2 is enough for `getUrl`: the recursion bottoms out after one
scheme-downgrade retry, because the retried URL's scheme is `https`. -/
lemma getUrl_fuel_stable (tok : Option String) (send : Request → Except String Response)
    (u : Url) (f : Nat) (h : 2 ≤ f) :
    getUrl tok send f u = getUrl tok send 2 u := by
  obtain ⟨k, rfl⟩ : ∃ k, f = (k + 1) + 1 := ⟨f - 2, by omega⟩
  rw [show (2 : Nat) = 1 + 1 from rfl, getUrl_succ tok send (k + 1) u, getUrl_succ tok send 1 u]
  cases send (mkReq tok u) with
  | error m => rfl
  | ok resp =>
    dsimp only
    by_cases hc : u.scheme = "http" ∧ statusIsError resp.status
    · rw [if_pos hc, if_pos hc]
      obtain ⟨u2, hu2, hs2⟩ := parseUrl_rewrite_http u hc.1
      rw [hu2]
      have hne : ¬ u2.scheme = "http" := by
        rw [hs2]
        decide
      dsimp only
      rw [getUrl_succ_of_ne_http tok send u2 hne k, getUrl_one_of_ne_http tok send u2 hne]
    · rw [if_neg hc, if_neg hc]

/-- `getUrl` with fuel 2 issues at most two requests. -/
lemma getUrl_trace_le_two (tok : Option String) (send : Request → Except String Response)
    (u : Url) : (getUrl tok send 2 u).2.length ≤ 2 := by
  by_cases h : u.scheme = "http"
  · rw [show (2 : Nat) = 1 + 1 from rfl, getUrl_succ tok send 1 u]
    cases send (mkReq tok u) with
    | error m => simp
    | ok resp =>
      dsimp only
      by_cases hc : u.scheme = "http" ∧ statusIsError resp.status
      · rw [if_pos hc]
        obtain ⟨u2, hu2, hs2⟩ := parseUrl_rewrite_http u hc.1
        rw [hu2]
        have hne : ¬ u2.scheme = "http" := by
          rw [hs2]
          decide
        dsimp only
        rw [show (1 : Nat) = 0 + 1 from rfl, getUrl_trace_of_ne_http tok send u2 hne 0]
        simp
      · rw [if_neg hc]
        split <;> simp
  · rw [show (2 : Nat) = 1 + 1 from rfl, getUrl_trace_of_ne_http tok send u h 1]
    simp

/-! ## The text accessor -/

/-- One unfolding step of `getTextUrl` at positive fuel. -/
lemma getTextUrl_succ (tok : Option String) (send : Request → Except String Response)
    (f : Nat) (u : Url) :
    getTextUrl tok send (f + 1) u =
      (match getUrl tok send 2 u with
       | (.ok resp, reqs) =>
         if startsWithStr resp.body "<!DOCTYPE html>" then
           if u.scheme = "http" then
             match parseUrl (rewriteUrl u.render) with
             | none => (.panic "invalid url", reqs)
             | some u2 => ((getTextUrl tok send f u2).1, reqs ++ (getTextUrl tok send f u2).2)
           else (.err (.htmlBody u), reqs)
         else (.ok resp.body, reqs)
       | (.err e, reqs) => (.err e, reqs)
       | (.panic m, reqs) => (.panic m, reqs)
       | (.fuelOut, reqs) => (.fuelOut, reqs)) := rfl

/-- On a URL whose scheme is not `http`, `getTextUrl` never recurses. -/
lemma getTextUrl_succ_of_ne_http (tok : Option String) (send : Request → Except String Response)
    (u : Url) (h : ¬ u.scheme = "http") (f : Nat) :
    getTextUrl tok send (f + 1) u =
      (match getUrl tok send 2 u with
       | (.ok resp, reqs) =>
         if startsWithStr resp.body "<!DOCTYPE html>" then (.err (.htmlBody u), reqs)
         else (.ok resp.body, reqs)
       | (.err e, reqs) => (.err e, reqs)
       | (.panic m, reqs) => (.panic m, reqs)
       | (.fuelOut, reqs) => (.fuelOut, reqs)) := by
  rw [getTextUrl_succ]
  rcases hg : getUrl tok send 2 u with ⟨o, reqs⟩
  cases o with
  | ok resp =>
    dsimp only
    rw [if_neg h]
  | err e => rfl
  | panic m => rfl
  | fuelOut => rfl

/-- Specialization of `getTextUrl_succ_of_ne_http` to fuel 1. -/
lemma getTextUrl_one_of_ne_http (tok : Option String) (send : Request → Except String Response)
    (u : Url) (h : ¬ u.scheme = "http") :
    getTextUrl tok send 1 u =
      (match getUrl tok send 2 u with
       | (.ok resp, reqs) =>
         if startsWithStr resp.body "<!DOCTYPE html>" then (.err (.htmlBody u), reqs)
         else (.ok resp.body, reqs)
       | (.err e, reqs) => (.err e, reqs)
       | (.panic m, reqs) => (.panic m, reqs)
       | (.fuelOut, reqs) => (.fuelOut, reqs)) :=
  getTextUrl_succ_of_ne_http tok send u h 0

/-- Fuel 2 is enough for `getTextUrl`: its one recursive call is on a URL
whose scheme is `https`, which does not recurse again. -/
lemma getTextUrl_fuel_stable (tok : Option String) (send : Request → Except String Response)
    (u : Url) (f : Nat) (h : 2 ≤ f) :
    getTextUrl tok send f u = getTextUrl tok send 2 u := by
  obtain ⟨k, rfl⟩ : ∃ k, f = (k + 1) + 1 := ⟨f - 2, by omega⟩
  rw [show (2 : Nat) = 1 + 1 from rfl, getTextUrl_succ tok send (k + 1) u,
    getTextUrl_succ tok send 1 u]
  rcases hg : getUrl tok send 2 u with ⟨o, reqs⟩
  cases o with
  | ok resp =>
    dsimp only
    by_cases hh : startsWithStr resp.body "<!DOCTYPE html>"
    · rw [if_pos hh, if_pos hh]
      by_cases hs : u.scheme = "http"
      · rw [if_pos hs, if_pos hs]
        obtain ⟨u2, hu2, hs2⟩ := parseUrl_rewrite_http u hs
        rw [hu2]
        have hne : ¬ u2.scheme = "http" := by
          rw [hs2]
          decide
        dsimp only
        rw [getTextUrl_succ_of_ne_http tok send u2 hne k,
          getTextUrl_one_of_ne_http tok send u2 hne]
      · rw [if_neg hs, if_neg hs]
    · rw [if_neg hh, if_neg hh]
  | err e => rfl
  | panic m => rfl
  | fuelOut => rfl

/-- On a URL whose scheme is not `http`, `getTextUrl`'s requests are exactly
those of the underlying `get`. -/
lemma getTextUrl_trace_of_ne_http (tok : Option String) (send : Request → Except String Response)
    (u : Url) (h : ¬ u.scheme = "http") (f : Nat) :
    (getTextUrl tok send (f + 1) u).2 = (getUrl tok send 2 u).2 := by
  rw [getTextUrl_succ_of_ne_http tok send u h f]
  rcases hg : getUrl tok send 2 u with ⟨o, reqs⟩
  cases o with
  | ok resp =>
    dsimp only
    split <;> rfl
  | err e => rfl
  | panic m => rfl
  | fuelOut => rfl

/-- `getTextUrl` with fuel 2 issues at most three requests: up to two from the
first `get` (one scheme-downgrade retry) and one from the HTML retry, whose
inner `get` cannot retry again. -/
lemma getTextUrl_trace_le_three (tok : Option String) (send : Request → Except String Response)
    (u : Url) : (getTextUrl tok send 2 u).2.length ≤ 3 := by
  have hbase := getUrl_trace_le_two tok send u
  rw [show (2 : Nat) = 1 + 1 from rfl, getTextUrl_succ tok send 1 u]
  rcases hg : getUrl tok send 2 u with ⟨o, reqs⟩
  rw [hg] at hbase
  cases o with
  | ok resp =>
    dsimp only
    dsimp only at hbase
    by_cases hh : startsWithStr resp.body "<!DOCTYPE html>"
    · rw [if_pos hh]
      by_cases hs : u.scheme = "http"
      · rw [if_pos hs]
        obtain ⟨u2, hu2, hs2⟩ := parseUrl_rewrite_http u hs
        rw [hu2]
        have hne : ¬ u2.scheme = "http" := by
          rw [hs2]
          decide
        dsimp only
        rw [show (1 : Nat) = 0 + 1 from rfl, getTextUrl_trace_of_ne_http tok send u2 hne 0,
          show (2 : Nat) = 1 + 1 from rfl, getUrl_trace_of_ne_http tok send u2 hne 1]
        simp only [List.length_append, List.length_cons, List.length_nil]
        omega
      · rw [if_neg hs]
        dsimp only
        omega
    · rw [if_neg hh]
      dsimp only
      omega
  | err e =>
    dsimp only
    dsimp only at hbase
    omega
  | panic m =>
    dsimp only
    dsimp only at hbase
    omega
  | fuelOut =>
    dsimp only
    dsimp only at hbase
    omega

/-! ## Occurrence lemmas for the string search primitives -/

/-- One unfolding step of `splitOnFirst` on a nonempty list. -/
lemma splitOnFirst_cons (pat : List Char) (c : Char) (cs : List Char) :
    splitOnFirst pat (c :: cs) =
      if isPre pat (c :: cs) then some ([], (c :: cs).drop pat.length)
      else
        match splitOnFirst pat cs with
        | some (a, b) => some (c :: a, b)
        | none => none := rfl

/-- A failed search on a nonempty list means: no match at the head, and a
failed search on the tail. -/
lemma splitOnFirst_cons_none (pat : List Char) (c : Char) (cs : List Char)
    (h : splitOnFirst pat (c :: cs) = none) :
    isPre pat (c :: cs) = false ∧ splitOnFirst pat cs = none := by
  rw [splitOnFirst_cons] at h
  by_cases hp : isPre pat (c :: cs)
  · rw [if_pos hp] at h
    exact absurd h (by simp)
  · refine ⟨by simpa using hp, ?_⟩
    rw [if_neg hp] at h
    rcases hsp : splitOnFirst pat cs with _ | ⟨a, b⟩
    · rfl
    · rw [hsp] at h
      exact absurd h (by simp)

/-- When the pattern does not occur, the Rust-style replace is the identity,
at every fuel. -/
lemma replaceGo_eq_of_no_occur (pat rep : List Char) (f : Nat) :
    ∀ l : List Char, splitOnFirst pat l = none → replaceGo pat rep f l = l := by
  induction f with
  | zero =>
    intro l _
    cases l <;> rfl
  | succ f ih =>
    intro l h
    cases l with
    | nil => rfl
    | cons c cs =>
      obtain ⟨hp, hrest⟩ := splitOnFirst_cons_none pat c cs h
      show (if isPre pat (c :: cs) then rep ++ replaceGo pat rep f (cs.drop (pat.length - 1))
        else c :: replaceGo pat rep f cs) = c :: cs
      rw [if_neg (by simp [hp]), ih cs hrest]

/-- Every list is a leading segment of itself extended by anything. -/
lemma isPre_append_self (l : List Char) : ∀ b : List Char, isPre l (l ++ b) = true := by
  induction l with
  | nil =>
    intro b
    rfl
  | cons a as ih =>
    intro b
    show ((a == a) && isPre as (as ++ b)) = true
    rw [ih b]
    simp

/-- A list that contains the pattern as an inner segment yields a successful
search. -/
lemma splitOnFirst_isSome_append (pat b : List Char) :
    ∀ a : List Char, (splitOnFirst pat (a ++ (pat ++ b))).isSome = true := by
  intro a
  induction a with
  | nil =>
    rw [List.nil_append]
    cases pat with
    | nil =>
      cases b <;> rfl
    | cons p ps =>
      rw [List.cons_append, splitOnFirst_cons,
        if_pos (by rw [← List.cons_append]; exact isPre_append_self (p :: ps) b)]
      rfl
  | cons c cs ih =>
    rw [List.cons_append, splitOnFirst_cons]
    by_cases hp : isPre pat (c :: (cs ++ (pat ++ b)))
    · rw [if_pos hp]
      rfl
    · rw [if_neg hp]
      obtain ⟨⟨x, y⟩, hx⟩ := Option.isSome_iff_exists.mp ih
      rw [hx]
      rfl

/-- The content-mismatch error message of `get_text` names the offending URL:
the URL's rendering occurs in the message. -/
lemma htmlErrorMessage_names_url (u : Url) :
    containsSub (htmlErrorMessage u) u.render = true := by
  unfold containsSub htmlErrorMessage
  have hsplit : ("Got HTML instead of text from " ++ u.render).toList =
      "Got HTML instead of text from ".toList ++ (u.render.toList ++ []) := by
    rw [List.append_nil]
    rfl
  rw [hsplit]
  exact splitOnFirst_isSome_append u.render.toList [] "Got HTML instead of text from ".toList

/-! ## The download loop -/

/-- One unfolding step of `dlGo` on a nonempty body at positive fuel. -/
lemma dlGo_succ_cons (pr : Bool) (f : Nat) (c : Char) (cs : List Char) :
    dlGo pr (f + 1) (c :: cs) =
      DlEvent.write ((c :: cs).take 32768) ::
        ((if pr then [DlEvent.inc (((c :: cs).take 32768).length)] else []) ++
          dlGo pr f (cs.drop 32767)) := rfl

/-- `dlGo` on an empty body is empty, at every fuel. -/
lemma dlGo_nil (pr : Bool) (f : Nat) : dlGo pr f [] = [] := by
  cases f <;> rfl

/-- The bytes written by the download loop are exactly the body. -/
lemma writtenBytes_dlGo (pr : Bool) (f : Nat) :
    ∀ l : List Char, l.length ≤ f → writtenBytes (dlGo pr f l) = l := by
  induction f with
  | zero =>
    intro l h
    cases l with
    | nil => rfl
    | cons c cs => simp at h
  | succ f ih =>
    intro l h
    cases l with
    | nil =>
      rw [dlGo_nil]
      rfl
    | cons c cs =>
      rw [dlGo_succ_cons]
      have hlen : (cs.drop 32767).length ≤ f := by
        rw [List.length_drop]
        simp only [List.length_cons] at h
        omega
      have hrec := ih (cs.drop 32767) hlen
      cases pr with
      | true =>
        show (c :: cs).take 32768 ++
          writtenBytes (DlEvent.inc (((c :: cs).take 32768).length) ::
            dlGo true f (cs.drop 32767)) = c :: cs
        show (c :: cs).take 32768 ++ writtenBytes (dlGo true f (cs.drop 32767)) = c :: cs
        rw [hrec, ← List.drop_succ_cons, List.take_append_drop]
      | false =>
        show (c :: cs).take 32768 ++ writtenBytes (dlGo false f (cs.drop 32767)) = c :: cs
        rw [hrec, ← List.drop_succ_cons, List.take_append_drop]

/-- With a progress sink present, the loop reports exactly the body's length
in total. -/
lemma reportedSum_dlGo (f : Nat) :
    ∀ l : List Char, l.length ≤ f → reportedSum (dlGo true f l) = l.length := by
  induction f with
  | zero =>
    intro l h
    cases l with
    | nil => rfl
    | cons c cs => simp at h
  | succ f ih =>
    intro l h
    cases l with
    | nil =>
      rw [dlGo_nil]
      rfl
    | cons c cs =>
      rw [dlGo_succ_cons]
      have hlen : (cs.drop 32767).length ≤ f := by
        rw [List.length_drop]
        simp only [List.length_cons] at h
        omega
      have hrec := ih (cs.drop 32767) hlen
      show ((c :: cs).take 32768).length + reportedSum (dlGo true f (cs.drop 32767)) =
        (c :: cs).length
      rw [hrec, List.length_take, List.length_drop]
      simp only [List.length_cons]
      omega

/-- The loop never declares a total length. -/
lemma setLengthCount_dlGo (pr : Bool) (f : Nat) :
    ∀ l : List Char, setLengthCount (dlGo pr f l) = 0 := by
  induction f with
  | zero =>
    intro l
    cases l <;> rfl
  | succ f ih =>
    intro l
    cases l with
    | nil =>
      rw [dlGo_nil]
      rfl
    | cons c cs =>
      rw [dlGo_succ_cons]
      cases pr with
      | true =>
        show setLengthCount (DlEvent.inc (((c :: cs).take 32768).length) ::
          dlGo true f (cs.drop 32767)) = 0
        show setLengthCount (dlGo true f (cs.drop 32767)) = 0
        exact ih (cs.drop 32767)
      | false => exact ih (cs.drop 32767)

/-- With a progress sink, the loop's events are exactly: each chunk written,
then immediately reported. -/
lemma dlGo_eq_dlShape (f : Nat) :
    ∀ l : List Char, dlGo true f l = dlShape (chunksGo f l) := by
  induction f with
  | zero =>
    intro l
    cases l <;> rfl
  | succ f ih =>
    intro l
    cases l with
    | nil => rfl
    | cons c cs =>
      rw [dlGo_succ_cons]
      show DlEvent.write ((c :: cs).take 32768) ::
          DlEvent.inc (((c :: cs).take 32768).length) :: dlGo true f (cs.drop 32767) =
        DlEvent.write ((c :: cs).take 32768) ::
          DlEvent.inc (((c :: cs).take 32768).length) :: dlShape (chunksGo f (cs.drop 32767))
      rw [ih (cs.drop 32767)]

/-- Every chunk the loop reads is nonempty and fits the 32 KiB buffer. -/
lemma chunksGo_bounds (f : Nat) :
    ∀ l : List Char, ∀ ch ∈ chunksGo f l, ch ≠ [] ∧ ch.length ≤ 32768 := by
  induction f with
  | zero =>
    intro l ch hch
    cases l <;> simp [chunksGo] at hch
  | succ f ih =>
    intro l ch hch
    cases l with
    | nil => simp [chunksGo] at hch
    | cons c cs =>
      rw [show chunksGo (f + 1) (c :: cs) = (c :: cs).take 32768 :: chunksGo f (cs.drop 32767)
        from rfl, List.mem_cons] at hch
      rcases hch with rfl | hch
      · constructor
        · show ¬ (c :: cs).take 32768 = []
          simp
        · rw [List.length_take]
          omega
      · exact ih (cs.drop 32767) ch hch

/-! ## The authorization header -/

/-- Every request `getUrl` issues, at any fuel and including the retry
attempt, carries the authorization header exactly when its own host is
`api.github.com` and a credential is configured. -/
lemma getUrl_authHeader (tok : Option String) (send : Request → Except String Response) :
    ∀ (f : Nat) (u : Url) (req : Request), req ∈ (getUrl tok send f u).2 →
      req.authHeader =
        (if req.url.host = "api.github.com" then tok.map (fun t => "token " ++ t) else none) := by
  intro f
  induction f with
  | zero =>
    intro u req h
    simp [getUrl] at h
  | succ f ih =>
    intro u req h
    rw [getUrl_succ] at h
    rcases hsend : send (mkReq tok u) with m | resp
    · rw [hsend] at h
      dsimp only at h
      rw [List.mem_singleton] at h
      subst h
      rfl
    · rw [hsend] at h
      dsimp only at h
      by_cases hc : u.scheme = "http" ∧ statusIsError resp.status
      · rw [if_pos hc] at h
        rcases hparse : parseUrl (rewriteUrl u.render) with _ | u2
        · rw [hparse] at h
          dsimp only at h
          rw [List.mem_singleton] at h
          subst h
          rfl
        · rw [hparse] at h
          dsimp only at h
          rw [List.mem_cons] at h
          rcases h with rfl | h
          · rfl
          · exact ih u2 req h
      · rw [if_neg hc] at h
        rcases hserr : statusIsError resp.status with _ | _
        · rw [hserr] at h
          simp only [Bool.false_eq_true, if_false] at h
          rw [List.mem_singleton] at h
          subst h
          rfl
        · rw [hserr] at h
          simp only [if_true] at h
          rw [List.mem_singleton] at h
          subst h
          rfl

/-! ## Unfolding the string-level entry points -/

/-- `Client.get` on a string that resolves. -/
lemma Client.get_eq (tok : Option String) (send : Request → Except String Response)
    (s : String) (u : Url) (h : parseUrl s = some u) :
    Client.get tok send s = getUrl tok send 2 u := by
  unfold Client.get
  rw [h]

/-- `Client.get_text` on a string that resolves. -/
lemma Client.get_text_eq (tok : Option String) (send : Request → Except String Response)
    (s : String) (u : Url) (h : parseUrl s = some u) :
    Client.get_text tok send s = getTextUrl tok send 2 u := by
  unfold Client.get_text
  rw [h]

/-- On a non-`http` URL, `getUrl` at fuel 2 equals `getUrl` at fuel 1. -/
lemma getUrl_two_eq_one_of_ne_http (tok : Option String)
    (send : Request → Except String Response) (u : Url) (h : ¬ u.scheme = "http") :
    getUrl tok send 2 u = getUrl tok send 1 u := by
  rw [show (2 : Nat) = 1 + 1 from rfl, getUrl_succ_of_ne_http tok send u h 1,
    getUrl_one_of_ne_http tok send u h]

/-- On a non-`http` URL, `getTextUrl` at fuel 2 equals `getTextUrl` at fuel 1. -/
lemma getTextUrl_two_eq_one_of_ne_http (tok : Option String)
    (send : Request → Except String Response) (u : Url) (h : ¬ u.scheme = "http") :
    getTextUrl tok send 2 u = getTextUrl tok send 1 u := by
  rw [show (2 : Nat) = 1 + 1 from rfl, getTextUrl_succ_of_ne_http tok send u h 1,
    getTextUrl_one_of_ne_http tok send u h]

/-! ## Claims -/

/-- Claim C1: for every URL with scheme http whose GET response has a failure
status, `get` issues exactly one further request, against the https-rewritten
URL, and returns that second attempt's result unconditionally; the second
attempt issues exactly one request (whose scheme is https), so a third attempt
never occurs even if the https attempt also fails. -/
theorem claim_C1_http_failure_single_retry
    (tok : Option String) (send : Request → Except String Response)
    (s : String) (u : Url) (resp : Response)
    (hparse : parseUrl s = some u) (hscheme : u.scheme = "http")
    (hsend : send (mkReq tok u) = .ok resp) (hstatus : statusIsError resp.status = true) :
    ∃ u2 : Url, parseUrl (rewriteUrl u.render) = some u2 ∧ u2.scheme = "https" ∧
      Client.get tok send s =
        ((Client.get tok send (rewriteUrl u.render)).1,
          mkReq tok u :: (Client.get tok send (rewriteUrl u.render)).2) ∧
      (Client.get tok send (rewriteUrl u.render)).2 = [mkReq tok u2] := by
  obtain ⟨u2, hu2, hs2⟩ := parseUrl_rewrite_http u hscheme
  have hne : ¬ u2.scheme = "http" := by
    rw [hs2]
    decide
  have hretry : Client.get tok send (rewriteUrl u.render) = getUrl tok send 1 u2 := by
    rw [Client.get_eq tok send _ u2 hu2, getUrl_two_eq_one_of_ne_http tok send u2 hne]
  have hmain : Client.get tok send s =
      ((getUrl tok send 1 u2).1, mkReq tok u :: (getUrl tok send 1 u2).2) := by
    rw [Client.get_eq tok send s u hparse, show (2 : Nat) = 1 + 1 from rfl,
      getUrl_succ tok send 1 u, hsend]
    dsimp only
    rw [if_pos ⟨hscheme, hstatus⟩, hu2]
  refine ⟨u2, hu2, hs2, ?_, ?_⟩
  · rw [hmain, hretry]
  · rw [hretry, show (1 : Nat) = 0 + 1 from rfl, getUrl_trace_of_ne_http tok send u2 hne 0]

/-- Claim C7: for every URL with scheme https whose GET response has a failure
status, `get` fails immediately with an HTTP-status error carrying that status
code, issuing exactly one request (no retry). -/
theorem claim_C7_https_failure_no_retry
    (tok : Option String) (send : Request → Except String Response)
    (s : String) (u : Url) (resp : Response)
    (hparse : parseUrl s = some u) (hscheme : u.scheme = "https")
    (hsend : send (mkReq tok u) = .ok resp) (hstatus : statusIsError resp.status = true) :
    Client.get tok send s = (.err (.status resp.status u), [mkReq tok u]) := by
  have hne : ¬ u.scheme = "http" := by
    rw [hscheme]
    decide
  rw [Client.get_eq tok send s u hparse, show (2 : Nat) = 1 + 1 from rfl,
    getUrl_succ_of_ne_http tok send u hne 1, hsend]
  dsimp only
  rw [if_pos hstatus]

/-- Claim C3: every request issued by `get`, including the scheme-downgrade
retry attempt, carries the `authorization: token <value>` header if and only
if its URL's host is `api.github.com` and a credential is configured; any
other host never receives the header. -/
theorem claim_C3_auth_header_allow_list
    (tok : Option String) (send : Request → Except String Response)
    (s : String) (req : Request) (h : req ∈ (Client.get tok send s).2) :
    req.authHeader =
      (if req.url.host = "api.github.com" then tok.map (fun t => "token " ++ t) else none) := by
  rcases hparse : parseUrl s with _ | u
  · rw [show Client.get tok send s = (.panic "invalid url", []) from by
      unfold Client.get; rw [hparse]] at h
    simp at h
  · rw [Client.get_eq tok send s u hparse] at h
    exact getUrl_authHeader tok send 2 u req h

/-- A server for which plaintext requests fail with 500 and TLS requests
succeed. -/
def sendC1 : Request → Except String Response := fun r =>
  if r.url.scheme = "http" then .ok ⟨500, none, ""⟩ else .ok ⟨200, none, "ok"⟩

/-- Witness for claim C1 at a concrete plaintext URL. -/
theorem claim_C1_witness :
    parseUrl "http://h/" = some ⟨"http", "h", "/"⟩ ∧
    sendC1 (mkReq none ⟨"http", "h", "/"⟩) = .ok ⟨500, none, ""⟩ ∧
    statusIsError 500 = true ∧
    (∃ u2 : Url, parseUrl (rewriteUrl (Url.render ⟨"http", "h", "/"⟩)) = some u2 ∧
      u2.scheme = "https" ∧
      Client.get none sendC1 "http://h/" =
        ((Client.get none sendC1 (rewriteUrl (Url.render ⟨"http", "h", "/"⟩))).1,
          mkReq none ⟨"http", "h", "/"⟩ ::
            (Client.get none sendC1 (rewriteUrl (Url.render ⟨"http", "h", "/"⟩))).2) ∧
      (Client.get none sendC1 (rewriteUrl (Url.render ⟨"http", "h", "/"⟩))).2 =
        [mkReq none u2]) :=
  ⟨by decide, rfl, by decide,
    claim_C1_http_failure_single_retry none sendC1 "http://h/" ⟨"http", "h", "/"⟩
      ⟨500, none, ""⟩ (by decide) rfl rfl (by decide)⟩

/-- A server that always answers 503. -/
def sendC7 : Request → Except String Response := fun _ => .ok ⟨503, none, ""⟩

/-- Witness for claim C7 at a concrete https URL. -/
theorem claim_C7_witness :
    parseUrl "https://h/" = some ⟨"https", "h", "/"⟩ ∧
    statusIsError 503 = true ∧
    Client.get none sendC7 "https://h/" =
      (.err (.status 503 ⟨"https", "h", "/"⟩), [mkReq none ⟨"https", "h", "/"⟩]) :=
  ⟨by decide, by decide,
    claim_C7_https_failure_no_retry none sendC7 "https://h/" ⟨"https", "h", "/"⟩
      ⟨503, none, ""⟩ (by decide) rfl rfl (by decide)⟩

/-- A server that always answers 200 with an empty body. -/
def sendC3 : Request → Except String Response := fun _ => .ok ⟨200, none, ""⟩

/-- Witness for claim C3: the one request of a GET to `api.github.com` with a
configured credential carries the header. -/
theorem claim_C3_witness :
    (mkReq (some "T") ⟨"https", "api.github.com", "/x"⟩ ∈
      (Client.get (some "T") sendC3 "https://api.github.com/x").2) ∧
    (mkReq (some "T") ⟨"https", "api.github.com", "/x"⟩).authHeader =
      (if (mkReq (some "T") ⟨"https", "api.github.com", "/x"⟩).url.host = "api.github.com"
        then (some "T").map (fun t => "token " ++ t) else none) :=
  ⟨by decide,
    claim_C3_auth_header_allow_list (some "T") sendC3 "https://api.github.com/x" _ (by decide)⟩

/-- A server for which plaintext requests fail with 500 and TLS requests
answer 200 with an HTML body. -/
def sendC2 : Request → Except String Response := fun r =>
  if r.url.scheme = "http" then .ok ⟨500, none, ""⟩ else .ok ⟨200, none, "<!DOCTYPE html>"⟩

/-- Counterexample to claim C2 as stated: a single logical `get_text` call can
issue three HTTP request attempts (plaintext attempt, scheme-downgrade retry
inside `get`, then `get_text`'s own HTML retry). -/
theorem claim_C2_counterexample :
    (Client.get_text none sendC2 "http://h/").2.length = 3 := by decide

/-- Claim C2 (amended): `get` issues at most 2 requests per logical call;
`get_text` issues at most 3 (the HTML retry can follow a scheme-downgrade
retry inside the first `get`, but the retried calls cannot retry again); and
both recursions terminate: any fuel of at least 2 gives the same result. -/
theorem claim_C2_amended_bounds
    (tok : Option String) (send : Request → Except String Response)
    (s : String) (u : Url) (f : Nat) (hparse : parseUrl s = some u) (hf : 2 ≤ f) :
    (Client.get tok send s).2.length ≤ 2 ∧
    (Client.get_text tok send s).2.length ≤ 3 ∧
    getUrl tok send f u = getUrl tok send 2 u ∧
    getTextUrl tok send f u = getTextUrl tok send 2 u := by
  refine ⟨?_, ?_, getUrl_fuel_stable tok send u f hf, getTextUrl_fuel_stable tok send u f hf⟩
  · rw [Client.get_eq tok send s u hparse]
    exact getUrl_trace_le_two tok send u
  · rw [Client.get_text_eq tok send s u hparse]
    exact getTextUrl_trace_le_three tok send u

/-- Witness for the amended claim C2. -/
theorem claim_C2_witness :
    parseUrl "http://h/" = some ⟨"http", "h", "/"⟩ ∧ 2 ≤ 5 ∧
    ((Client.get none sendC2 "http://h/").2.length ≤ 2 ∧
     (Client.get_text none sendC2 "http://h/").2.length ≤ 3 ∧
     getUrl none sendC2 5 ⟨"http", "h", "/"⟩ = getUrl none sendC2 2 ⟨"http", "h", "/"⟩ ∧
     getTextUrl none sendC2 5 ⟨"http", "h", "/"⟩ = getTextUrl none sendC2 2 ⟨"http", "h", "/"⟩) :=
  ⟨by decide, by decide,
    claim_C2_amended_bounds none sendC2 "http://h/" ⟨"http", "h", "/"⟩ 5 (by decide) (by decide)⟩

/-- An http URL whose query itself contains the substring `http://`. -/
def urlEmbedded : Url := ⟨"http", "example.com", "/?r=http://e/"⟩

/-- A server for which plaintext requests fail with 500 and TLS requests
succeed. -/
def sendC8 : Request → Except String Response := fun r =>
  if r.url.scheme = "http" then .ok ⟨500, none, ""⟩ else .ok ⟨200, none, "ok"⟩

/-- Counterexample to claim C8 as stated: the retry URL is computed by a
string-level replace of every `http://` occurrence, so a query containing
`http://` is rewritten too — the second request's URL differs from the
original in more than the scheme. -/
theorem claim_C8_counterexample :
    rewriteUrl urlEmbedded.render ≠ (schemeOnlyRewrite urlEmbedded).render ∧
    (Client.get none sendC8 urlEmbedded.render).2.map (fun r => r.url) =
      [urlEmbedded, ⟨"https", "example.com", "/?r=https://e/"⟩] ∧
    (⟨"https", "example.com", "/?r=https://e/"⟩ : Url).rest ≠ urlEmbedded.rest := by
  refine ⟨by decide, by decide, by decide⟩

/-- Parsing a serialized `http` URL, explicitly. -/
lemma parseUrl_mk_http (ys : List Char) :
    parseUrl (String.mk ('h' :: 't' :: 't' :: 'p' :: ':' :: '/' :: '/' :: ys)) =
      some ⟨"http", String.mk (ys.takeWhile notDelim), String.mk (ys.dropWhile notDelim)⟩ := rfl

/-- Parsing a serialized `https` URL, explicitly. -/
lemma parseUrl_mk_https (ys : List Char) :
    parseUrl (String.mk ('h' :: 't' :: 't' :: 'p' :: 's' :: ':' :: '/' :: '/' :: ys)) =
      some ⟨"https", String.mk (ys.takeWhile notDelim), String.mk (ys.dropWhile notDelim)⟩ := rfl

/-- Claim C8 (amended): the retry URL (computed identically by `get` and
`get_text`) is the serialized URL with every occurrence of `http://` replaced
by `https://`; when `http://` occurs nowhere outside the scheme position (and
the URL parses back to itself), this coincides with rewriting only the scheme:
the serialized retry URL equals the scheme-only rewrite, it parses to exactly
the scheme-only-rewritten URL, and the retry request that `get` (on a failure
status) or `get_text` (on an HTML body) actually issues goes to that URL, with
host, path, query and fragment unchanged. -/
theorem claim_C8_amended_scheme_only_rewrite
    (u : Url) (hscheme : u.scheme = "http")
    (hround : parseUrl u.render = some u)
    (hno : splitOnFirst "http://".toList (u.host.toList ++ u.rest.toList) = none) :
    rewriteUrl u.render = (schemeOnlyRewrite u).render ∧
    parseUrl (rewriteUrl u.render) = some (schemeOnlyRewrite u) ∧
    (∀ (tok : Option String) (send : Request → Except String Response) (resp : Response),
      send (mkReq tok u) = .ok resp → statusIsError resp.status = true →
      (Client.get tok send u.render).2.map (fun r => r.url) = [u, schemeOnlyRewrite u]) ∧
    (∀ (tok : Option String) (send : Request → Except String Response) (resp : Response),
      send (mkReq tok u) = .ok resp → statusIsError resp.status = false →
      startsWithStr resp.body "<!DOCTYPE html>" = true →
      (Client.get_text tok send u.render).2.map (fun r => r.url) =
        [u, schemeOnlyRewrite u]) := by
  have hr : u.render = String.mk ('h' :: 't' :: 't' :: 'p' :: ':' :: '/' :: '/' ::
      (u.host.toList ++ u.rest.toList)) := by
    unfold Url.render
    rw [serialize_http u hscheme]
  have hfields : (⟨"http",
      String.mk ((u.host.toList ++ u.rest.toList).takeWhile notDelim),
      String.mk ((u.host.toList ++ u.rest.toList).dropWhile notDelim)⟩ : Url) = u := by
    have h := hround
    rw [hr, parseUrl_mk_http] at h
    exact Option.some.inj h
  have hhost : String.mk ((u.host.toList ++ u.rest.toList).takeWhile notDelim) = u.host :=
    congrArg Url.host hfields
  have hrest : String.mk ((u.host.toList ++ u.rest.toList).dropWhile notDelim) = u.rest :=
    congrArg Url.rest hfields
  have h1 : rewriteUrl u.render = (schemeOnlyRewrite u).render := by
    rw [hr]
    have h2 : rewriteUrl (String.mk ('h' :: 't' :: 't' :: 'p' :: ':' :: '/' :: '/' ::
        (u.host.toList ++ u.rest.toList))) =
        String.mk ('h' :: 't' :: 't' :: 'p' :: 's' :: ':' :: '/' :: '/' ::
          replaceGo "http://".toList "https://".toList
            ((u.host.toList ++ u.rest.toList).length + 6)
            (u.host.toList ++ u.rest.toList)) := rfl
    rw [h2, replaceGo_eq_of_no_occur "http://".toList "https://".toList _ _ hno]
    rfl
  have h2 : parseUrl (rewriteUrl u.render) = some (schemeOnlyRewrite u) := by
    rw [h1, show (schemeOnlyRewrite u).render =
      String.mk ('h' :: 't' :: 't' :: 'p' :: 's' :: ':' :: '/' :: '/' ::
        (u.host.toList ++ u.rest.toList)) from rfl, parseUrl_mk_https, hhost, hrest]
    rfl
  have hne : ¬ (schemeOnlyRewrite u).scheme = "http" := by
    intro hcon
    exact (by decide : ¬ ("https" : String) = "http") hcon
  refine ⟨h1, h2, ?_, ?_⟩
  · intro tok send resp hsend hstatus
    rw [Client.get_eq tok send u.render u hround, show (2 : Nat) = 1 + 1 from rfl,
      getUrl_succ tok send 1 u, hsend]
    dsimp only
    rw [if_pos ⟨hscheme, hstatus⟩, h2]
    dsimp only
    rw [show (1 : Nat) = 0 + 1 from rfl,
      getUrl_trace_of_ne_http tok send (schemeOnlyRewrite u) hne 0]
    rfl
  · intro tok send resp hsend hstatus hhtml
    have hget : getUrl tok send 2 u = (.ok resp, [mkReq tok u]) := by
      rw [show (2 : Nat) = 1 + 1 from rfl, getUrl_succ tok send 1 u, hsend]
      dsimp only
      rw [if_neg (fun hc => by rw [hstatus] at hc; exact Bool.false_ne_true hc.2),
        if_neg (by rw [hstatus]; exact Bool.false_ne_true)]
    rw [Client.get_text_eq tok send u.render u hround, show (2 : Nat) = 1 + 1 from rfl,
      getTextUrl_succ tok send 1 u, hget]
    dsimp only
    rw [if_pos hhtml, if_pos hscheme, h2]
    dsimp only
    rw [show (1 : Nat) = 0 + 1 from rfl,
      getTextUrl_trace_of_ne_http tok send (schemeOnlyRewrite u) hne 0,
      show (2 : Nat) = 1 + 1 from rfl,
      getUrl_trace_of_ne_http tok send (schemeOnlyRewrite u) hne 1]
    rfl

/-- Witness for the amended claim C8: a plain http URL with no embedded
`http://` is retried against exactly its scheme-only rewrite. -/
theorem claim_C8_witness :
    parseUrl (Url.render ⟨"http", "h", "/a"⟩) = some ⟨"http", "h", "/a"⟩ ∧
    splitOnFirst "http://".toList ((String.toList "h") ++ (String.toList "/a")) = none ∧
    rewriteUrl (Url.render ⟨"http", "h", "/a"⟩) =
      (schemeOnlyRewrite ⟨"http", "h", "/a"⟩).render ∧
    (Client.get none sendC8 (Url.render ⟨"http", "h", "/a"⟩)).2.map (fun r => r.url) =
      [⟨"http", "h", "/a"⟩, schemeOnlyRewrite ⟨"http", "h", "/a"⟩] :=
  ⟨by decide, by decide,
    (claim_C8_amended_scheme_only_rewrite ⟨"http", "h", "/a"⟩ rfl (by decide) (by decide)).1,
    (claim_C8_amended_scheme_only_rewrite ⟨"http", "h", "/a"⟩ rfl (by decide)
      (by decide)).2.2.1 none sendC8 ⟨500, none, ""⟩ rfl (by decide)⟩

/-- Claim C4: when the decoded body starts with `<!DOCTYPE html>`, `get_text`
retries exactly once against the https-rewritten URL if the original scheme is
http (returning that retry's result, its requests appended to the first
attempt's), and otherwise fails with the content-mismatch error for the
offending URL, whose message names that URL. -/
theorem claim_C4_html_retry_or_mismatch
    (tok : Option String) (send : Request → Except String Response)
    (s : String) (u : Url) (resp : Response) (reqs : List Request)
    (hparse : parseUrl s = some u)
    (hget : getUrl tok send 2 u = (.ok resp, reqs))
    (hhtml : startsWithStr resp.body "<!DOCTYPE html>" = true) :
    (u.scheme = "http" →
      ∃ u2 : Url, parseUrl (rewriteUrl u.render) = some u2 ∧ u2.scheme = "https" ∧
        Client.get_text tok send s =
          ((Client.get_text tok send (rewriteUrl u.render)).1,
            reqs ++ (Client.get_text tok send (rewriteUrl u.render)).2)) ∧
    (¬ u.scheme = "http" →
      Client.get_text tok send s = (.err (.htmlBody u), reqs) ∧
      containsSub (htmlErrorMessage u) u.render = true) := by
  have hmain : Client.get_text tok send s = getTextUrl tok send 2 u :=
    Client.get_text_eq tok send s u hparse
  constructor
  · intro hs
    obtain ⟨u2, hu2, hs2⟩ := parseUrl_rewrite_http u hs
    have hne : ¬ u2.scheme = "http" := by
      rw [hs2]
      decide
    have hretry : Client.get_text tok send (rewriteUrl u.render) = getTextUrl tok send 1 u2 := by
      rw [Client.get_text_eq tok send _ u2 hu2, getTextUrl_two_eq_one_of_ne_http tok send u2 hne]
    refine ⟨u2, hu2, hs2, ?_⟩
    rw [hmain, show (2 : Nat) = 1 + 1 from rfl, getTextUrl_succ tok send 1 u, hget]
    dsimp only
    rw [if_pos hhtml, if_pos hs, hu2]
    dsimp only
    rw [hretry]
  · intro hs
    refine ⟨?_, htmlErrorMessage_names_url u⟩
    rw [hmain, show (2 : Nat) = 1 + 1 from rfl, getTextUrl_succ tok send 1 u, hget]
    dsimp only
    rw [if_pos hhtml, if_neg hs]

/-- A server that always answers 200 with an HTML body. -/
def sendC4 : Request → Except String Response := fun _ => .ok ⟨200, none, "<!DOCTYPE html>"⟩

/-- Witness for claim C4: an https URL answered with HTML fails with the
content-mismatch error naming the URL. -/
theorem claim_C4_witness :
    getUrl none sendC4 2 ⟨"https", "h", "/"⟩ =
      (.ok ⟨200, none, "<!DOCTYPE html>"⟩, [mkReq none ⟨"https", "h", "/"⟩]) ∧
    startsWithStr "<!DOCTYPE html>" "<!DOCTYPE html>" = true ∧
    (Client.get_text none sendC4 "https://h/" =
      (.err (.htmlBody ⟨"https", "h", "/"⟩), [mkReq none ⟨"https", "h", "/"⟩]) ∧
     containsSub (htmlErrorMessage ⟨"https", "h", "/"⟩) (Url.render ⟨"https", "h", "/"⟩) = true) :=
  ⟨rfl, by decide,
    (claim_C4_html_retry_or_mismatch none sendC4 "https://h/" ⟨"https", "h", "/"⟩
      ⟨200, none, "<!DOCTYPE html>"⟩ [mkReq none ⟨"https", "h", "/"⟩]
      (by decide) rfl (by decide)).2 (by decide)⟩

/-- Claim C5: a successful `download_file` with a declared content length and
a progress sink declares that length to the sink exactly once, before any
transfer; writes each chunk in full and reports its size immediately after;
stops at the zero-length read; reports the body's length in total; and writes
exactly the body's bytes. -/
theorem claim_C5_download_stream
    (tok : Option String) (send : Request → Except String Response)
    (s : String) (u : Url) (resp : Response) (reqs : List Request)
    (L : Nat) (d : String) (path : FsPath)
    (hparse : parseUrl s = some u)
    (hget : getUrl tok send 2 u = (.ok resp, reqs))
    (hlen : resp.contentLength = some L)
    (hpar : path.parent = some d) :
    Client.download_file tok send true s path =
      (.ok (), reqs,
        DlEvent.setLength L :: DlEvent.createDir d :: DlEvent.createFile ::
          dlShape (chunksOf resp.body.toList)) ∧
    setLengthCount (Client.download_file tok send true s path).2.2 = 1 ∧
    writtenBytes (Client.download_file tok send true s path).2.2 = resp.body.toList ∧
    reportedSum (Client.download_file tok send true s path).2.2 = resp.body.length ∧
    (∀ ch ∈ chunksOf resp.body.toList, ch ≠ [] ∧ ch.length ≤ 32768) := by
  have hdl : Client.download_file tok send true s path =
      (.ok (), reqs,
        DlEvent.setLength L :: DlEvent.createDir d :: DlEvent.createFile ::
          dlGo true resp.body.toList.length resp.body.toList) := by
    unfold Client.download_file
    rw [hparse]
    dsimp only
    rw [hget]
    dsimp only
    rw [hlen]
    dsimp only
    rw [hpar]
    rfl
  have hshape : dlGo true resp.body.toList.length resp.body.toList =
      dlShape (chunksOf resp.body.toList) :=
    dlGo_eq_dlShape resp.body.toList.length resp.body.toList
  refine ⟨?_, ?_, ?_, ?_, chunksGo_bounds resp.body.toList.length resp.body.toList⟩
  · rw [hdl, hshape]
  · rw [hdl]
    show 1 + setLengthCount (dlGo true resp.body.toList.length resp.body.toList) = 1
    rw [setLengthCount_dlGo true resp.body.toList.length resp.body.toList]
  · rw [hdl]
    show writtenBytes (dlGo true resp.body.toList.length resp.body.toList) = resp.body.toList
    exact writtenBytes_dlGo true resp.body.toList.length resp.body.toList (Nat.le_refl _)
  · rw [hdl]
    show reportedSum (dlGo true resp.body.toList.length resp.body.toList) = resp.body.length
    exact reportedSum_dlGo resp.body.toList.length resp.body.toList (Nat.le_refl _)

/-- A server answering 200 with a two-byte body and a declared length of 2. -/
def sendC5 : Request → Except String Response := fun _ => .ok ⟨200, some 2, "ab"⟩

/-- Witness for claim C5 at a concrete two-byte download. -/
theorem claim_C5_witness :
    getUrl none sendC5 2 ⟨"https", "h", "/f"⟩ =
      (.ok ⟨200, some 2, "ab"⟩, [mkReq none ⟨"https", "h", "/f"⟩]) ∧
    Client.download_file none sendC5 true "https://h/f" ⟨some "/tmp", "f"⟩ =
      (.ok (), [mkReq none ⟨"https", "h", "/f"⟩],
        DlEvent.setLength 2 :: DlEvent.createDir "/tmp" :: DlEvent.createFile ::
          dlShape (chunksOf (String.toList "ab"))) :=
  ⟨rfl,
    (claim_C5_download_stream none sendC5 "https://h/f" ⟨"https", "h", "/f"⟩
      ⟨200, some 2, "ab"⟩ [mkReq none ⟨"https", "h", "/f"⟩] 2 "/tmp" ⟨some "/tmp", "f"⟩
      (by decide) rfl rfl rfl).1⟩

/-- Claim C6: `error_code` returns 404 whenever the message contains "404"
(even if a different typed status is present); otherwise it returns the typed
status of a recovered transport error when one carries a status; otherwise no
classification. -/
theorem claim_C6_error_code_classification (e : Report) :
    (containsSub e.msg "404" = true → error_code e = some 404) ∧
    (containsSub e.msg "404" = false →
      ∀ code : Nat, e.reqwestStatus = some (some code) → error_code e = some code) ∧
    (containsSub e.msg "404" = false →
      e.reqwestStatus = none ∨ e.reqwestStatus = some none → error_code e = none) := by
  refine ⟨?_, ?_, ?_⟩
  · intro h
    unfold error_code
    rw [if_pos h]
  · intro h code hst
    unfold error_code
    rw [if_neg (by simp [h]), hst]
  · intro h hst
    unfold error_code
    rcases hst with hst | hst <;> rw [if_neg (by simp [h]), hst]

/-- Witness for claim C6: a message containing "404" is classified as 404 even
though the error carries a typed 503 status. -/
theorem claim_C6_witness :
    containsSub "request failed: 404 Not Found" "404" = true ∧
    error_code ⟨"request failed: 404 Not Found", some (some 503)⟩ = some 404 :=
  ⟨by decide,
    (claim_C6_error_code_classification
      ⟨"request failed: 404 Not Found", some (some 503)⟩).1 (by decide)⟩

/-- Claim C9: a malformed URL given to `download_file` yields an explicit URL
error (not a panic), with no request issued and no filesystem event. -/
theorem claim_C9_download_bad_url
    (tok : Option String) (send : Request → Except String Response)
    (pr : Bool) (s : String) (path : FsPath) (h : parseUrl s = none) :
    Client.download_file tok send pr s path = (.err (.urlParse s), [], []) := by
  unfold Client.download_file
  rw [h]

/-- Witness for claim C9 at a concrete malformed URL. -/
theorem claim_C9_witness :
    parseUrl "nourl" = none ∧
    Client.download_file none (fun _ => Except.error "x") true "nourl" ⟨some "/tmp", "f"⟩ =
      (.err (.urlParse "nourl"), [], []) :=
  ⟨by decide,
    claim_C9_download_bad_url none (fun _ => Except.error "x") true "nourl"
      ⟨some "/tmp", "f"⟩ (by decide)⟩

/-- Counterexample to claim C10 as stated: a call whose destination path has
no parent but whose URL is malformed returns the URL error — it does not reach
the ensure-parent step and does not panic. -/
theorem claim_C10_counterexample :
    (⟨none, "/"⟩ : FsPath).parent = none ∧
    Client.download_file none (fun _ => Except.ok ⟨200, none, ""⟩) true "nourl" ⟨none, "/"⟩ =
      (.err (.urlParse "nourl"), [], []) := by
  refine ⟨rfl, by decide⟩

/-- Claim C10 (amended): when the URL resolves and the GET succeeds, a
destination path with no parent makes `download_file` panic at the
ensure-parent-directory step (after any declare-total call, before any
directory or file is created) instead of returning an error result; if the URL
is malformed or the GET fails, that error is returned before the step is
reached. -/
theorem claim_C10_amended_parent_unwrap_panics
    (tok : Option String) (send : Request → Except String Response)
    (pr : Bool) (s : String) (u : Url) (resp : Response) (reqs : List Request) (path : FsPath)
    (hparse : parseUrl s = some u)
    (hget : getUrl tok send 2 u = (.ok resp, reqs))
    (hpar : path.parent = none) :
    Client.download_file tok send pr s path =
      (.panic "called Option::unwrap() on a None value", reqs,
        match resp.contentLength with
        | some l => if pr then [DlEvent.setLength l] else []
        | none => []) := by
  unfold Client.download_file
  rw [hparse]
  dsimp only
  rw [hget]
  dsimp only
  rw [hpar]

/-- A server answering 200 with an empty body. -/
def sendC10 : Request → Except String Response := fun _ => .ok ⟨200, none, ""⟩

/-- Witness for the amended claim C10 at a concrete parentless path. -/
theorem claim_C10_witness :
    (⟨none, "/"⟩ : FsPath).parent = none ∧
    Client.download_file none sendC10 true "https://h/" ⟨none, "/"⟩ =
      (.panic "called Option::unwrap() on a None value",
        [mkReq none ⟨"https", "h", "/"⟩],
        match (⟨200, none, ""⟩ : Response).contentLength with
        | some l => if true then [DlEvent.setLength l] else []
        | none => []) :=
  ⟨rfl,
    claim_C10_amended_parent_unwrap_panics none sendC10 true "https://h/" ⟨"https", "h", "/"⟩
      ⟨200, none, ""⟩ [mkReq none ⟨"https", "h", "/"⟩] ⟨none, "/"⟩ (by decide) rfl rfl⟩
